import Mathlib

/-!
Shallow embedding of the SimplexMotion motor driver (simplexMotor.py).

The driver talks to a motor over Modbus holding registers.  We model:
* the bus as an oracle giving the response of each read transaction and
  the error status of each write transaction;
* each driver method as a pure function from the driver state and the bus
  to a result (success value or raised error) together with the transcript
  of transport transactions it issued, in order;
* Python floats as rationals (every numeric claim checked below involves
  only values that IEEE-754 doubles represent and compute exactly).
-/

namespace SimplexMotion

/-- Modelled from the spec: the register address map (module reg_map) is not
part of the sources; the spec states the exact numeric addresses are
device-specific configuration data and not part of the algorithmic
contract.  We fix distinct placeholder addresses (MOTOR_OPTIONS = 212
following the docstring of get_counters_per_rev, which names register 212). -/
def MOTOR_TORQUE_MAX : Nat := 217

def MOTOR_OPTIONS : Nat := 212

def MOTOR_POSTITION : Nat := 200

def MOTOR_SPEED : Nat := 202

def MODE : Nat := 400

/-- Names of registers used as error context (the Python code passes context
strings such as "TorqueMax" to _handle_modbus_error). -/
inductive RegName where
  | torqueMax
  | motorOptions
  | position
  | speed
  | mode
deriving Repr, DecidableEq

/-- A Modbus response as used by the code: an error flag (resp.isError())
and the list of 16-bit register words (resp.registers). -/
structure RegResponse where
  isError : Bool
  registers : List Nat
deriving Repr, DecidableEq

/-- The bus oracle: what each read transaction (address, count) returns and
whether each write transaction (address, value) reports an error. -/
structure Bus where
  readResult : Nat → Nat → RegResponse
  writeIsError : Nat → Nat → Bool

/-- One transport transaction, as recorded in an operation transcript. -/
inductive Transaction where
  | read (addr count : Nat)
  | write (addr value : Nat)
deriving Repr, DecidableEq

/-- The errors the driver can raise (Python exceptions). -/
inductive DriverError where
  | notConnected
  | connectionError
  | invalidMode (mode : Int)
  | modbusError (context : RegName)
  | writeFailed
deriving Repr, DecidableEq

/-- The state of the underlying ModbusSerialClient object held in
self.client: whether its serial link is currently open. -/
structure ClientState where
  isOpen : Bool
deriving Repr, DecidableEq

/-- The driver state: self.client is None (no client object) or a client
object in some state.  Communication parameters other than the slave id
play no role in the register logic. -/
structure SimplexMotor where
  client : Option ClientState
  slave_id : Nat
deriving Repr, DecidableEq

/-- SimplexMotor.connect: assigns a fresh client to self.client, then asks
it to open the link; the outcome of the underlying open is the parameter
ok.  On failure a RuntimeError is raised, but self.client stays assigned. -/
def SimplexMotor.connect (m : SimplexMotor) (ok : Bool) :
    SimplexMotor × Except DriverError Unit :=
  let m' : SimplexMotor := { m with client := some { isOpen := ok } }
  (m', if ok then .ok () else .error .connectionError)

/-- SimplexMotor.close: if self.client is not None, closes the underlying
link.  (The attribute self.client itself is not reassigned.) -/
def SimplexMotor.close (m : SimplexMotor) : SimplexMotor :=
  match m.client with
  | none => m
  | some _ => { m with client := some { isOpen := false } }

/-- SimplexMotor._check_connection: raises RuntimeError("Client not
connected.") iff self.client is None. -/
def SimplexMotor.check_connection (m : SimplexMotor) : Except DriverError Unit :=
  match m.client with
  | none => .error .notConnected
  | some _ => .ok ()

/-- SimplexMotor.get_torque_max: one 1-word read; raw / 1000.0. -/
def SimplexMotor.get_torque_max (m : SimplexMotor) (bus : Bus) :
    Except DriverError ℚ × List Transaction :=
  match m.check_connection with
  | .error e => (.error e, [])
  | .ok _ =>
    let resp := bus.readResult MOTOR_TORQUE_MAX 1
    if resp.isError then
      (.error (.modbusError .torqueMax), [.read MOTOR_TORQUE_MAX 1])
    else
      let raw := resp.registers.getD 0 0
      (.ok ((raw : ℚ) / 1000), [.read MOTOR_TORQUE_MAX 1])

/-- The resolution decode inlined in get_counters_per_rev (lines 121-132):
bits 12-15 of the options word select the counts-per-revolution. -/
def cpr_of_options (raw : Nat) : Nat :=
  let resolution_bits := (raw >>> 12) &&& 0xF
  if resolution_bits = 0 then 4096
  else if resolution_bits = 1 then 8192
  else if resolution_bits = 2 then 16384
  else 4096

/-- SimplexMotor.get_counters_per_rev: one 1-word read of MOTOR_OPTIONS,
decoded by cpr_of_options; the unknown-bits branch only logs a warning
and defaults, it raises nothing. -/
def SimplexMotor.get_counters_per_rev (m : SimplexMotor) (bus : Bus) :
    Except DriverError Nat × List Transaction :=
  match m.check_connection with
  | .error e => (.error e, [])
  | .ok _ =>
    let resp := bus.readResult MOTOR_OPTIONS 1
    if resp.isError then
      (.error (.modbusError .motorOptions), [.read MOTOR_OPTIONS 1])
    else
      (.ok (cpr_of_options (resp.registers.getD 0 0)), [.read MOTOR_OPTIONS 1])

/-- The signed-32 decode inlined in get_position_counts (lines 157-163):
compose (msw << 16) | lsw, then subtract 2^32 when bit 31 is set. -/
def decode_signed32 (msw lsw : Nat) : Int :=
  let raw_uint32 := (msw <<< 16) ||| lsw
  if raw_uint32 &&& 0x80000000 ≠ 0 then (raw_uint32 : Int) - 0x100000000
  else (raw_uint32 : Int)

/-- SimplexMotor.get_position_counts: one 2-word read, registers[0] is the
most significant word, decoded as a signed 32-bit integer. -/
def SimplexMotor.get_position_counts (m : SimplexMotor) (bus : Bus) :
    Except DriverError Int × List Transaction :=
  match m.check_connection with
  | .error e => (.error e, [])
  | .ok _ =>
    let resp := bus.readResult MOTOR_POSTITION 2
    if resp.isError then
      (.error (.modbusError .position), [.read MOTOR_POSTITION 2])
    else
      let msw := resp.registers.getD 0 0
      let lsw := resp.registers.getD 1 0
      (.ok (decode_signed32 msw lsw), [.read MOTOR_POSTITION 2])

/-- SimplexMotor.get_position: get_position_counts then a second,
independent get_counters_per_rev; counts * 360.0 / cpr. -/
def SimplexMotor.get_position (m : SimplexMotor) (bus : Bus) :
    Except DriverError ℚ × List Transaction :=
  match m.get_position_counts bus with
  | (.error e, t1) => (.error e, t1)
  | (.ok counts, t1) =>
    match m.get_counters_per_rev bus with
    | (.error e, t2) => (.error e, t1 ++ t2)
    | (.ok cpr, t2) => (.ok ((counts : ℚ) * 360 / (cpr : ℚ)), t1 ++ t2)

/-- The signed-16 decode inlined in get_speed (lines 204-207). -/
def sign_extend16 (raw : Nat) : Int :=
  if raw &&& 0x8000 ≠ 0 then (raw : Int) - 0x10000 else (raw : Int)

/-- SimplexMotor.get_speed: one 1-word signed read, then a fresh
get_counters_per_rev (a second transaction); raw * 16.0 * 360.0 / cpr. -/
def SimplexMotor.get_speed (m : SimplexMotor) (bus : Bus) :
    Except DriverError ℚ × List Transaction :=
  match m.check_connection with
  | .error e => (.error e, [])
  | .ok _ =>
    let resp := bus.readResult MOTOR_SPEED 1
    if resp.isError then
      (.error (.modbusError .speed), [.read MOTOR_SPEED 1])
    else
      let raw := resp.registers.getD 0 0
      let raw_signed := sign_extend16 raw
      match m.get_counters_per_rev bus with
      | (.error e, t2) => (.error e, .read MOTOR_SPEED 1 :: t2)
      | (.ok cpr, t2) =>
        (.ok ((raw_signed : ℚ) * 16 * 360 / (cpr : ℚ)), .read MOTOR_SPEED 1 :: t2)

/-- SimplexMotor.get_mode: one 1-word read, returned unscaled. -/
def SimplexMotor.get_mode (m : SimplexMotor) (bus : Bus) :
    Except DriverError Nat × List Transaction :=
  match m.check_connection with
  | .error e => (.error e, [])
  | .ok _ =>
    let resp := bus.readResult MODE 1
    if resp.isError then
      (.error (.modbusError .mode), [.read MODE 1])
    else
      (.ok (resp.registers.getD 0 0), [.read MODE 1])

/-- The options-word update computed in set_position_resolution (line 263):
keep bits 0-11 of the old word, put the mode in bits 12-15. -/
def pack_resolution (old mode : Nat) : Nat :=
  (old &&& 0x0FFF) ||| (mode <<< 12)

/-- SimplexMotor.set_position_resolution: connection check, then mode
validation, then read-modify-write on MOTOR_OPTIONS, skipping the write
when the computed new value equals the value read. -/
def SimplexMotor.set_position_resolution (m : SimplexMotor) (bus : Bus)
    (mode : Int) : Except DriverError Unit × List Transaction :=
  match m.check_connection with
  | .error e => (.error e, [])
  | .ok _ =>
    if mode = 0 ∨ mode = 1 ∨ mode = 2 then
      let resp := bus.readResult MOTOR_OPTIONS 1
      if resp.isError then
        (.error (.modbusError .motorOptions), [.read MOTOR_OPTIONS 1])
      else
        let options_old := resp.registers.getD 0 0
        let options_new := pack_resolution options_old mode.toNat
        if options_old = options_new then
          (.ok (), [.read MOTOR_OPTIONS 1])
        else if bus.writeIsError MOTOR_OPTIONS options_new then
          (.error .writeFailed,
            [.read MOTOR_OPTIONS 1, .write MOTOR_OPTIONS options_new])
        else
          (.ok (), [.read MOTOR_OPTIONS 1, .write MOTOR_OPTIONS options_new])
    else
      (.error (.invalidMode mode), [])

/-- A driver in the Connected state: a client exists and its link is open
(the state reached by a successful connect). -/
def Connected (m : SimplexMotor) : Prop :=
  ∃ c, m.client = some c ∧ c.isOpen = true

/-! ### Arithmetic helper lemmas about the bit manipulations -/

lemma and_mask12_eq_mod (x : Nat) : x &&& 0x0FFF = x % 4096 := by
  have h := Nat.and_pow_two_sub_one_eq_mod x 12
  norm_num at h
  exact h

lemma and_maskF_eq_mod (x : Nat) : x &&& 0xF = x % 16 := by
  have h := Nat.and_pow_two_sub_one_eq_mod x 4
  norm_num at h
  exact h

lemma or_shiftLeft12_eq_add (b mode : Nat) (hb : b < 4096) :
    b ||| (mode <<< 12) = mode * 4096 + b := by
  rw [Nat.shiftLeft_eq, Nat.lor_comm]
  have hb2 : b < 2 ^ 12 := by norm_num; exact hb
  calc mode * 2 ^ 12 ||| b = 2 ^ 12 * mode ||| b := by rw [Nat.mul_comm]
    _ = 2 ^ 12 * mode + b := (Nat.mul_add_lt_is_or hb2 mode).symm
    _ = mode * 4096 + b := by ring_nf

/-- The packed options word, arithmetically. -/
lemma pack_resolution_eq (old mode : Nat) :
    pack_resolution old mode = mode * 4096 + old % 4096 := by
  unfold pack_resolution
  rw [and_mask12_eq_mod]
  exact or_shiftLeft12_eq_add (old % 4096) mode (Nat.mod_lt old (by norm_num))

lemma cpr_of_options_eq (w : Nat) :
    cpr_of_options w =
      if (w >>> 12) &&& 0xF = 0 then 4096
      else if (w >>> 12) &&& 0xF = 1 then 8192
      else if (w >>> 12) &&& 0xF = 2 then 16384
      else 4096 := rfl

/-- Testing a single bit with a mask, in div/mod form. -/
lemma and_two_pow_ne_zero_iff (x k : Nat) :
    x &&& 2 ^ k ≠ 0 ↔ x / 2 ^ k % 2 = 1 := by
  simp only [Nat.and_two_pow, Nat.testBit_to_div_mod]
  by_cases hd : x / 2 ^ k % 2 = 1 <;>
    simp [hd, Nat.pos_iff_ne_zero.mp (Nat.two_pow_pos k)]

lemma compose16_eq_add (msw lsw : Nat) (h : lsw < 65536) :
    (msw <<< 16) ||| lsw = msw * 65536 + lsw := by
  rw [Nat.shiftLeft_eq]
  have hb2 : lsw < 2 ^ 16 := by norm_num; exact h
  calc msw * 2 ^ 16 ||| lsw = 2 ^ 16 * msw ||| lsw := by rw [Nat.mul_comm]
    _ = 2 ^ 16 * msw + lsw := (Nat.mul_add_lt_is_or hb2 msw).symm
    _ = msw * 65536 + lsw := by ring_nf

/-! ### Claim theorems -/

/-- C1: for every 16-bit options word old and every mode in \x7b0,1,2\x7d,
pack_resolution old mode is (old &&& 0x0FFF) ||| (mode <<< 12); it leaves
bits 0-11 of old unchanged, and pack_resolution 0x0ABC 2 = 0x2ABC. -/
theorem pack_resolution_preserves_low_bits (old mode : Nat)
    (hold : old < 65536) (hmode : mode = 0 ∨ mode = 1 ∨ mode = 2) :
    pack_resolution old mode = (old &&& 0x0FFF) ||| (mode <<< 12) ∧
    pack_resolution old mode &&& 0x0FFF = old &&& 0x0FFF ∧
    pack_resolution 0x0ABC 2 = 0x2ABC := by
  refine ⟨rfl, ?_, by decide⟩
  rw [pack_resolution_eq, and_mask12_eq_mod, and_mask12_eq_mod]
  omega

/-- C1 witness: the theorem applied at old = 0x0ABC, mode = 2. -/
theorem pack_resolution_preserves_low_bits_witness :
    0x0ABC < 65536 ∧
    pack_resolution 0x0ABC 2 &&& 0x0FFF = 0x0ABC &&& 0x0FFF :=
  ⟨by decide,
    (pack_resolution_preserves_low_bits 0x0ABC 2 (by decide) (by decide)).2.1⟩

/-- C10: extracting the resolution bits from a packed options word gives
back the mode, and decoding the packed word yields 4096 * 2 ^ mode, so the
unknown-bits default branch is unreachable on a validly packed word. -/
theorem pack_resolution_round_trip (old mode : Nat)
    (hmode : mode = 0 ∨ mode = 1 ∨ mode = 2) :
    ((((old &&& 0x0FFF) ||| (mode <<< 12)) >>> 12) &&& 0xF) = mode ∧
    cpr_of_options (pack_resolution old mode) = 4096 * 2 ^ mode := by
  have h1 : ((pack_resolution old mode) >>> 12) &&& 0xF = mode := by
    rw [pack_resolution_eq, Nat.shiftRight_eq_div_pow, and_maskF_eq_mod]
    have h2 : (2 : Nat) ^ 12 = 4096 := by norm_num
    rw [h2]
    rcases hmode with h | h | h <;> subst h <;> omega
  refine ⟨h1, ?_⟩
  rw [cpr_of_options_eq, h1]
  rcases hmode with h | h | h <;> subst h <;> norm_num

/-- C10 witness: the theorem applied at old = 0xFABC, mode = 1. -/
theorem pack_resolution_round_trip_witness :
    ((((0xFABC &&& 0x0FFF) ||| (1 <<< 12)) >>> 12) &&& 0xF) = 1 ∧
    cpr_of_options (pack_resolution 0xFABC 1) = 4096 * 2 ^ 1 :=
  pack_resolution_round_trip 0xFABC 1 (by decide)

/-- A bus whose every read succeeds with the given register words and
whose writes succeed. -/
def constBus (words : List Nat) : Bus :=
  { readResult := fun _ _ => { isError := false, registers := words },
    writeIsError := fun _ _ => false }

/-- A connected driver state (the state after a successful connect). -/
def motorConn : SimplexMotor :=
  { client := some { isOpen := true }, slave_id := 1 }

/-- A disconnected driver state (the initial state: self.client is None). -/
def motorDisc : SimplexMotor :=
  { client := none, slave_id := 1 }

/-- C6: the decode used by get_position_counts composes (msw <<< 16) ||| lsw
and sign-extends in two's complement: the mask test on bit 31 is exactly
the comparison 2^31 ≤ composed value, the result is the representative of
the composed value modulo 2^32 lying in [-2^31, 2^31), a successful 2-word
read makes get_position_counts return it, and concretely the decode of
(0xFFFF, 0xFFFE) is -2 and of (0xFFFF, 0xFFFF) is -1. -/
theorem decode_signed32_spec (msw lsw : Nat)
    (hm : msw < 65536) (hl : lsw < 65536) :
    decode_signed32 msw lsw =
      (if 2 ^ 31 ≤ msw * 65536 + lsw then (msw * 65536 + lsw : Int) - 2 ^ 32
       else (msw * 65536 + lsw : Int)) ∧
    -2 ^ 31 ≤ decode_signed32 msw lsw ∧
    decode_signed32 msw lsw < 2 ^ 31 ∧
    decode_signed32 msw lsw % 2 ^ 32 = ((msw * 65536 + lsw : Nat) : Int) ∧
    (∀ (m : SimplexMotor) (c : ClientState) (bus : Bus), m.client = some c →
      bus.readResult MOTOR_POSTITION 2 = ⟨false, [msw, lsw]⟩ →
      m.get_position_counts bus =
        (.ok (decode_signed32 msw lsw), [.read MOTOR_POSTITION 2])) ∧
    decode_signed32 0xFFFF 0xFFFE = -2 ∧
    decode_signed32 0xFFFF 0xFFFF = -1 := by
  have hcomp : (msw <<< 16) ||| lsw = msw * 65536 + lsw :=
    compose16_eq_add msw lsw hl
  have hbit := and_two_pow_ne_zero_iff (msw * 65536 + lsw) 31
  norm_num at hbit
  have hraw : msw * 65536 + lsw < 4294967296 := by omega
  have hdec : decode_signed32 msw lsw =
      (if 2 ^ 31 ≤ msw * 65536 + lsw then (msw * 65536 + lsw : Int) - 2 ^ 32
       else (msw * 65536 + lsw : Int)) := by
    simp only [decode_signed32, hcomp]
    norm_num
    by_cases h0 : msw * 65536 + lsw &&& 2147483648 = 0
    · have hne : ¬ (msw * 65536 + lsw) / 2147483648 % 2 = 1 :=
        fun hd => (hbit.mpr hd) h0
      have hle : ¬ 2147483648 ≤ msw * 65536 + lsw := by omega
      rw [if_pos h0, if_neg hle]
    · have hd := hbit.mp h0
      have hge : 2147483648 ≤ msw * 65536 + lsw := by omega
      rw [if_neg h0, if_pos hge]
  refine ⟨hdec, ?_, ?_, ?_, ?_, by decide, by decide⟩
  · rw [hdec]; split <;> [push_cast; push_cast] <;> omega
  · rw [hdec]; split <;> [push_cast; push_cast] <;> omega
  · rw [hdec]; split <;> [push_cast; push_cast] <;> omega
  · intro m c bus hc hresp
    simp [SimplexMotor.get_position_counts, SimplexMotor.check_connection,
      hc, hresp]

/-- C6 witness: the theorem applied at (0xFFFF, 0xFFFE) on a connected
driver and a bus answering those two words. -/
theorem decode_signed32_spec_witness :
    0xFFFF < 65536 ∧ 0xFFFE < 65536 ∧
    motorConn.get_position_counts (constBus [0xFFFF, 0xFFFE]) =
      (.ok (-2), [.read MOTOR_POSTITION 2]) := by
  have h := decode_signed32_spec 0xFFFF 0xFFFE (by decide) (by decide)
  have heval := h.2.2.2.2.1 motorConn { isOpen := true }
    (constBus [0xFFFF, 0xFFFE]) rfl rfl
  exact ⟨by decide, by decide, by rw [heval, h.2.2.2.2.2.1]⟩

/-- C7: the resolution decode of get_counters_per_rev extracts bits 12-15,
maps 0, 1, 2 to 4096, 8192, 16384, defaults every extracted value in
3..15 to 4096, and the call succeeds (returns, raising nothing) on any
successful read of the options register. -/
theorem cpr_decode_spec (w : Nat) :
    (w >>> 12) &&& 0xF < 16 ∧
    ((w >>> 12) &&& 0xF = 0 → cpr_of_options w = 4096) ∧
    ((w >>> 12) &&& 0xF = 1 → cpr_of_options w = 8192) ∧
    ((w >>> 12) &&& 0xF = 2 → cpr_of_options w = 16384) ∧
    (3 ≤ (w >>> 12) &&& 0xF → cpr_of_options w = 4096) ∧
    ∀ (m : SimplexMotor) (c : ClientState) (bus : Bus), m.client = some c →
      bus.readResult MOTOR_OPTIONS 1 = ⟨false, [w]⟩ →
      m.get_counters_per_rev bus =
        (.ok (cpr_of_options w), [.read MOTOR_OPTIONS 1]) := by
  refine ⟨?_, ?_, ?_, ?_, ?_, ?_⟩
  · have h := Nat.and_lt_two_pow (w >>> 12) (by norm_num : (0xF : Nat) < 2 ^ 4)
    norm_num at h
    exact h
  · intro h; rw [cpr_of_options_eq, h]; norm_num
  · intro h; rw [cpr_of_options_eq, h]; norm_num
  · intro h; rw [cpr_of_options_eq, h]; norm_num
  · intro h; rw [cpr_of_options_eq]; split_ifs <;> omega
  · intro m c bus hc hresp
    simp [SimplexMotor.get_counters_per_rev, SimplexMotor.check_connection,
      hc, hresp]

/-- C7 witness: the theorem applied at w = 0x7ABC (extracted bits 7, in the
default range) on a connected driver. -/
theorem cpr_decode_spec_witness :
    (3 ≤ (0x7ABC >>> 12) &&& 0xF ∧ cpr_of_options 0x7ABC = 4096) ∧
    motorConn.get_counters_per_rev (constBus [0x7ABC]) =
      (.ok (cpr_of_options 0x7ABC), [.read MOTOR_OPTIONS 1]) :=
  ⟨⟨by decide, (cpr_decode_spec 0x7ABC).2.2.2.2.1 (by decide)⟩,
    (cpr_decode_spec 0x7ABC).2.2.2.2.2 motorConn { isOpen := true }
      (constBus [0x7ABC]) rfl rfl⟩

/-- C3: every accessor and the setter, invoked while the driver is
Disconnected (self.client is None), fails with NotConnected and issues no
transport transaction at all. -/
theorem disconnected_ops_fail (m : SimplexMotor) (h : m.client = none) :
    ∀ (bus : Bus) (mode : Int),
      m.get_torque_max bus = (.error .notConnected, []) ∧
      m.get_counters_per_rev bus = (.error .notConnected, []) ∧
      m.get_position_counts bus = (.error .notConnected, []) ∧
      m.get_position bus = (.error .notConnected, []) ∧
      m.get_speed bus = (.error .notConnected, []) ∧
      m.get_mode bus = (.error .notConnected, []) ∧
      m.set_position_resolution bus mode = (.error .notConnected, []) := by
  intro bus mode
  have hcc : m.check_connection = .error .notConnected := by
    simp [SimplexMotor.check_connection, h]
  refine ⟨?_, ?_, ?_, ?_, ?_, ?_, ?_⟩ <;>
    simp [SimplexMotor.get_torque_max, SimplexMotor.get_counters_per_rev,
      SimplexMotor.get_position_counts, SimplexMotor.get_position,
      SimplexMotor.get_speed, SimplexMotor.get_mode,
      SimplexMotor.set_position_resolution, hcc]

/-- C3 witness: the theorem applied to the initial driver state, an
arbitrary bus and mode 1. -/
theorem disconnected_ops_fail_witness :
    motorDisc.client = none ∧
    motorDisc.get_mode (constBus [0]) = (.error .notConnected, []) ∧
    motorDisc.set_position_resolution (constBus [0]) 1 =
      (.error .notConnected, []) :=
  ⟨rfl,
    (disconnected_ops_fail motorDisc rfl (constBus [0]) 1).2.2.2.2.2.1,
    (disconnected_ops_fail motorDisc rfl (constBus [0]) 1).2.2.2.2.2.2⟩

/-- C4: set_position_resolution on a connected driver with a mode outside
\x7b0,1,2\x7d fails with the invalid-mode error before issuing any
transport transaction. -/
theorem invalid_mode_fails (m : SimplexMotor) (c : ClientState) (bus : Bus)
    (mode : Int) (hc : m.client = some c)
    (hmode : ¬(mode = 0 ∨ mode = 1 ∨ mode = 2)) :
    m.set_position_resolution bus mode = (.error (.invalidMode mode), []) := by
  simp [SimplexMotor.set_position_resolution, SimplexMotor.check_connection,
    hc, hmode]

/-- C4 witness: the theorem applied at mode = 5 on a connected driver. -/
theorem invalid_mode_fails_witness :
    motorConn.set_position_resolution (constBus [0]) 5 =
      (.error (.invalidMode 5), []) :=
  invalid_mode_fails motorConn { isOpen := true } (constBus [0]) 5 rfl
    (by decide)

/-- C5: set_position_resolution with a valid mode, when the packed value
equals the freshly read options word, returns successfully after exactly
one read and no write. -/
theorem set_resolution_idempotent (m : SimplexMotor) (c : ClientState)
    (bus : Bus) (mode : Int) (w : Nat) (hc : m.client = some c)
    (hmode : mode = 0 ∨ mode = 1 ∨ mode = 2)
    (hresp : bus.readResult MOTOR_OPTIONS 1 = ⟨false, [w]⟩)
    (hidem : pack_resolution w mode.toNat = w) :
    m.set_position_resolution bus mode = (.ok (), [.read MOTOR_OPTIONS 1]) := by
  rcases hmode with h | h | h <;> subst h
  · have h2 : pack_resolution w 0 = w := hidem
    simp [SimplexMotor.set_position_resolution, SimplexMotor.check_connection,
      hc, hresp, h2]
  · have h2 : pack_resolution w 1 = w := hidem
    simp [SimplexMotor.set_position_resolution, SimplexMotor.check_connection,
      hc, hresp, h2]
  · have h2 : pack_resolution w 2 = w := hidem
    simp [SimplexMotor.set_position_resolution, SimplexMotor.check_connection,
      hc, hresp, h2]

/-- C5 witness: the theorem applied with mode = 2 and options word 0x2ABC,
whose resolution bits already hold 2. -/
theorem set_resolution_idempotent_witness :
    pack_resolution 0x2ABC (Int.toNat 2) = 0x2ABC ∧
    motorConn.set_position_resolution (constBus [0x2ABC]) 2 =
      (.ok (), [.read MOTOR_OPTIONS 1]) :=
  ⟨by decide,
    set_resolution_idempotent motorConn { isOpen := true }
      (constBus [0x2ABC]) 2 0x2ABC rfl (by decide) rfl (by decide)⟩

/-- C9: get_torque_max issues one 1-word read, treats the word as unsigned
and returns raw / 1000; on raw value 1500 that is 1.5 Nm. -/
theorem get_torque_max_spec (m : SimplexMotor) (c : ClientState) (bus : Bus)
    (raw : Nat) (hc : m.client = some c)
    (hresp : bus.readResult MOTOR_TORQUE_MAX 1 = ⟨false, [raw]⟩) :
    m.get_torque_max bus =
      (.ok ((raw : ℚ) / 1000), [.read MOTOR_TORQUE_MAX 1]) ∧
    ((1500 : ℚ) / 1000 = 1.5) := by
  constructor
  · simp [SimplexMotor.get_torque_max, SimplexMotor.check_connection, hc,
      hresp]
  · norm_num

/-- C9 witness: the theorem applied at raw = 1500 on a connected driver. -/
theorem get_torque_max_spec_witness :
    motorConn.get_torque_max (constBus [1500]) =
      (.ok (1.5 : ℚ), [.read MOTOR_TORQUE_MAX 1]) := by
  have h := get_torque_max_spec motorConn { isOpen := true }
    (constBus [1500]) 1500 rfl rfl
  rw [h.1]
  norm_num

/-- The bus used to exercise get_speed on concrete words: the speed
register reads 0xFF9C (signed -100) and the options register 0x1000
(resolution bits 1, 8192 cpr). -/
def busSpeed : Bus :=
  { readResult := fun addr _ =>
      if addr = MOTOR_SPEED then { isError := false, registers := [0xFF9C] }
      else { isError := false, registers := [0x1000] },
    writeIsError := fun _ _ => false }

/-- C8: get_speed sign-extends the raw 16-bit word in two's complement
(subtracting 65536 when bit 15 is set, landing in [-32768, 32767]) and
returns raw_signed * 16 * 360 / cpr with the cpr from a second, fresh
options read; with raw 0xFF9C (signed -100) and cpr 8192 the result is
-70.3125 deg/s. -/
theorem get_speed_spec (m : SimplexMotor) (c : ClientState) (bus : Bus)
    (raw w : Nat) (hraw : raw < 65536) (hc : m.client = some c)
    (hspeed : bus.readResult MOTOR_SPEED 1 = ⟨false, [raw]⟩)
    (hopts : bus.readResult MOTOR_OPTIONS 1 = ⟨false, [w]⟩) :
    m.get_speed bus =
      (.ok ((sign_extend16 raw : ℚ) * 16 * 360 / (cpr_of_options w : ℚ)),
        [.read MOTOR_SPEED 1, .read MOTOR_OPTIONS 1]) ∧
    sign_extend16 raw =
      (if 2 ^ 15 ≤ raw then (raw : Int) - 2 ^ 16 else (raw : Int)) ∧
    (-32768 ≤ sign_extend16 raw ∧ sign_extend16 raw ≤ 32767) ∧
    sign_extend16 0xFF9C = -100 ∧
    cpr_of_options 0x1000 = 8192 ∧
    ((-100 : ℚ) * 16 * 360 / 8192 = -70.3125) := by
  have hbit := and_two_pow_ne_zero_iff raw 15
  norm_num at hbit
  have hchar : sign_extend16 raw =
      (if 2 ^ 15 ≤ raw then (raw : Int) - 2 ^ 16 else (raw : Int)) := by
    unfold sign_extend16
    norm_num
    by_cases h0 : raw &&& 32768 = 0
    · have hne : ¬ raw / 32768 % 2 = 1 := fun hd => (hbit.mpr hd) h0
      have hle : ¬ 32768 ≤ raw := by omega
      rw [if_pos h0, if_neg hle]
    · have hd := hbit.mp h0
      have hge : 32768 ≤ raw := by omega
      rw [if_neg h0, if_pos hge]
  refine ⟨?_, hchar, ?_, by decide, by decide, by norm_num⟩
  · simp [SimplexMotor.get_speed, SimplexMotor.get_counters_per_rev,
      SimplexMotor.check_connection, hc, hspeed, hopts]
  · rw [hchar]; split <;> omega

/-- C8 witness: the theorem applied at raw = 0xFF9C, options word 0x1000
on a connected driver. -/
theorem get_speed_spec_witness :
    motorConn.get_speed busSpeed =
      (.ok (-70.3125 : ℚ), [.read MOTOR_SPEED 1, .read MOTOR_OPTIONS 1]) := by
  have h := get_speed_spec motorConn { isOpen := true } busSpeed
    0xFF9C 0x1000 (by decide) rfl rfl rfl
  have e1 : ((sign_extend16 0xFF9C : ℚ) * 16 * 360 /
      (cpr_of_options 0x1000 : ℚ)) = -70.3125 := by
    rw [h.2.2.2.1, h.2.2.2.2.1]
    norm_num
  rw [h.1, e1]

/-- C2: evaluation of the code at the failing input.  Starting from the
Connected state, close() leaves self.client assigned (only the underlying
link is closed), so _check_connection still succeeds afterwards and a
subsequent get_mode() issues a transport read and returns a value instead
of failing with the not-connected error. -/
theorem close_leaves_client_set :
    (motorConn.close).client = some { isOpen := false } ∧
    (motorConn.close).check_connection = .ok () ∧
    (motorConn.close).get_mode (constBus [3]) = (.ok 3, [.read MODE 1]) ∧
    (motorDisc.close = motorDisc ∧ (motorConn.close).close = motorConn.close) := by
  refine ⟨rfl, rfl, ?_, rfl, rfl⟩
  simp [SimplexMotor.get_mode, SimplexMotor.check_connection,
    SimplexMotor.close, motorConn, constBus]

end SimplexMotion
